import Mathlib

/-!
Verification of the `userfn` signature classifier
(`pkg/beam/graph/userfn/userfn.go`).

The Go code is shallowly embedded: Go types inspected through reflection
become the inductive `GoType`; the external type oracle (`typex`/`reflectx`)
and the in-package shape predicates are modelled as executable boolean
functions; `New`, which returns `(*UserFn, error)`, becomes a function into
`Except String UserFn`; a Go panic (out-of-range slice index) is modelled
by `Option.none`.
-/

set_option linter.unusedVariables false

/-- A reflected Go type, as far as the classifier needs to distinguish them:
the canonical types matched by identity (context.Context, typex.EventTime,
reflect.Type, error), boolean (the iterator discriminator return), element
types together with the oracle verdicts on them, pointers, channels and
function types. -/
inductive GoType where
  | context
  | eventTime
  | typeToken
  | goError
  | goBool
  | elem (name : String) (container concrete universal : Bool)
  | ptr (t : GoType)
  | chan (t : GoType)
  | func (ins outs : List GoType)
deriving Repr

mutual

/-- Structural equality of reflected types, standing in for Go type identity
comparison. -/
def beqGoType : GoType → GoType → Bool
  | GoType.context, GoType.context => true
  | GoType.eventTime, GoType.eventTime => true
  | GoType.typeToken, GoType.typeToken => true
  | GoType.goError, GoType.goError => true
  | GoType.goBool, GoType.goBool => true
  | GoType.elem n1 c1 k1 u1, GoType.elem n2 c2 k2 u2 =>
    n1 == n2 && c1 == c2 && k1 == k2 && u1 == u2
  | GoType.ptr a, GoType.ptr b => beqGoType a b
  | GoType.chan a, GoType.chan b => beqGoType a b
  | GoType.func i1 o1, GoType.func i2 o2 => beqGoTypes i1 i2 && beqGoTypes o1 o2
  | _, _ => false

/-- Structural equality on lists of reflected types. -/
def beqGoTypes : List GoType → List GoType → Bool
  | [], [] => true
  | a :: as, b :: bs => beqGoType a b && beqGoTypes as bs
  | _, _ => false

end

instance : BEq GoType := ⟨beqGoType⟩

/-- Debug rendering of a type, standing in for Go fmt %v on a reflect.Type. -/
def showGoType : GoType → String
  | GoType.context => "context.Context"
  | GoType.eventTime => "typex.EventTime"
  | GoType.typeToken => "reflect.Type"
  | GoType.goError => "error"
  | GoType.goBool => "bool"
  | GoType.elem n _ _ _ => n
  | GoType.ptr t => "*" ++ showGoType t
  | GoType.chan t => "chan " ++ showGoType t
  | GoType.func _ _ => "func"

/-- Modelled from the spec: the external oracle test IsContainer of package
typex, whose source is not part of this repository. The oracle verdicts are
carried on element types. -/
def IsContainer : GoType → Bool
  | GoType.elem _ c _ _ => c
  | _ => false

/-- Modelled from the spec: the external oracle test IsConcrete of package
typex. -/
def IsConcrete : GoType → Bool
  | GoType.elem _ _ k _ => k
  | _ => false

/-- Modelled from the spec: the external oracle test IsUniversal of package
typex. -/
def IsUniversal : GoType → Bool
  | GoType.elem _ _ _ u => u
  | _ => false

/-- A type counts as an element-value type when the oracle accepts it as a
container, concrete or universal type. -/
def isElement (t : GoType) : Bool :=
  IsContainer t || IsConcrete t || IsUniversal t

/-- Modelled from the spec: the Emitter shape predicate IsEmit, declared in
this package but outside the provided source. A callable of 1 to 3
parameters returning nothing: with 3, an event timestamp followed by two
element types; with 2, two element types or a timestamp then an element
type; with 1, an element type. -/
def IsEmit : GoType → Bool
  | GoType.func ins [] =>
    match ins with
    | [a] => isElement a
    | [a, b] => (isElement a && isElement b) ||
        ((a == GoType.eventTime) && isElement b)
    | [a, b, c] => (a == GoType.eventTime) && isElement b && isElement c
    | _ => false
  | _ => false

/-- Modelled from the spec: the Iterator shape predicate IsIter, declared in
this package but outside the provided source. A callable of 1 or 2 pointer
parameters to element types, returning a boolean has-more flag. -/
def IsIter : GoType → Bool
  | GoType.func ins [GoType.goBool] =>
    match ins with
    | [GoType.ptr a] => isElement a
    | [GoType.ptr a, GoType.ptr b] => isElement a && isElement b
    | _ => false
  | _ => false

/-- Modelled from the spec: the Re-iterator shape predicate IsReIter,
declared in this package but outside the provided source. A callable of no
parameters returning a value matching the Iterator shape. -/
def IsReIter : GoType → Bool
  | GoType.func [] [r] => IsIter r
  | _ => false

/-- FnParamKind is a Go int holding bit flags. -/
abbrev FnParamKind := Nat

def FnIllegal : FnParamKind := 0x0
def FnContext : FnParamKind := 0x1
def FnEventTime : FnParamKind := 0x2
def FnValue : FnParamKind := 0x4
def FnIter : FnParamKind := 0x08
def FnReIter : FnParamKind := 0x10
def FnEmit : FnParamKind := 0x20
def FnType : FnParamKind := 0x40

/-- ReturnKind is a Go int holding bit flags. -/
abbrev ReturnKind := Nat

def RetIllegal : ReturnKind := 0x0
def RetEventTime : ReturnKind := 0x1
def RetValue : ReturnKind := 0x2
def RetError : ReturnKind := 0x4

/-- FnParam captures the kind and type of one function parameter. -/
structure FnParam where
  Kind : FnParamKind
  T : GoType
deriving Repr

/-- ReturnParam captures the kind and type of one return value. -/
structure ReturnParam where
  Kind : ReturnKind
  T : GoType
deriving Repr

/-- UserFn is the classified signature. The opaque reflect.Value of the
callable is not modelled (it never influences classification). -/
structure UserFn where
  Name : String
  Param : List FnParam
  Ret : List ReturnParam
deriving Repr

/-- The switch of New over one parameter type: the first matching case
decides the kind, the default keeps FnIllegal, rendered here as none. -/
def paramKind (t : GoType) : Option FnParamKind :=
  if t == GoType.context then some FnContext
  else if t == GoType.eventTime then some FnEventTime
  else if t == GoType.typeToken then some FnType
  else if IsContainer t || IsConcrete t || IsUniversal t then some FnValue
  else if IsEmit t then some FnEmit
  else if IsIter t then some FnIter
  else if IsReIter t then some FnReIter
  else none

/-- The switch of New over one return type. -/
def retKind (t : GoType) : Option ReturnKind :=
  if t == GoType.goError then some RetError
  else if t == GoType.eventTime then some RetEventTime
  else if IsContainer t || IsConcrete t || IsUniversal t then some RetValue
  else none

/-- The parameter loop of New: in declaration order, classify each type or
fail immediately with the bad-parameter error (spelled as in the source,
typo included). -/
def classifyParams (name : String) : List GoType → Except String (List FnParam)
  | [] => Except.ok []
  | t :: ts =>
    match paramKind t with
    | some k =>
      (classifyParams name ts).map (fun rest => { Kind := k, T := t } :: rest)
    | none => Except.error ("bad paramenter type for " ++ name ++ ": " ++ showGoType t)

/-- The return loop of New. -/
def classifyReturns (name : String) : List GoType → Except String (List ReturnParam)
  | [] => Except.ok []
  | t :: ts =>
    match retKind t with
    | some k =>
      (classifyReturns name ts).map (fun rest => { Kind := k, T := t } :: rest)
    | none => Except.error ("bad return type for " ++ name ++ ": " ++ showGoType t)

/-- The dynamic value handed to New: either a function value, whose name the
runtime reports and whose type lists parameter and return types, or a value
of some other reflect.Kind. -/
inductive GoValue where
  | funcVal (name : String) (ins outs : List GoType)
  | nonFunc (kindName : String)

/-- New returns a UserFn from a function, if valid. -/
def New : GoValue → Except String UserFn
  | GoValue.nonFunc k => Except.error ("not a function or method: " ++ k)
  | GoValue.funcVal name ins outs => do
    let param ← classifyParams name ins
    let ret ← classifyReturns name outs
    Except.ok { Name := name, Param := param, Ret := ret }

/-- The shared shape of the five finder loops of UserFn: scan kinds from
index i, return the first position whose kind equals k, or (-1, false). -/
def findKindFrom (k : Nat) (i : Nat) : List Nat → Int × Bool
  | [] => (-1, false)
  | p :: ps => if p = k then ((i : Int), true) else findKindFrom k (i + 1) ps

/-- Context returns (index, true) iff the function expects a context.Context. -/
def UserFn.Context (u : UserFn) : Int × Bool :=
  findKindFrom FnContext 0 (u.Param.map FnParam.Kind)

/-- Type returns (index, true) iff the function expects a reflect.Type. -/
def UserFn.Type (u : UserFn) : Int × Bool :=
  findKindFrom FnType 0 (u.Param.map FnParam.Kind)

/-- EventTime returns (index, true) iff the function expects an event
timestamp. -/
def UserFn.EventTime (u : UserFn) : Int × Bool :=
  findKindFrom FnEventTime 0 (u.Param.map FnParam.Kind)

/-- Error returns (index, true) iff the function returns an error. -/
def UserFn.Error (u : UserFn) : Int × Bool :=
  findKindFrom RetError 0 (u.Ret.map ReturnParam.Kind)

/-- OutEventTime returns (index, true) iff the function returns an event
timestamp. -/
def UserFn.OutEventTime (u : UserFn) : Int × Bool :=
  findKindFrom RetEventTime 0 (u.Ret.map ReturnParam.Kind)

/-- The filtering loop shared by Params and Returns: indices from i on whose
kind intersects the mask. -/
def maskFilterFrom (mask : Nat) (i : Nat) : List Nat → List Nat
  | [] => []
  | k :: ks =>
    if Nat.land k mask ≠ 0 then i :: maskFilterFrom mask (i + 1) ks
    else maskFilterFrom mask (i + 1) ks

/-- Params returns the parameter indices that match the given mask. -/
def UserFn.Params (u : UserFn) (mask : FnParamKind) : List Nat :=
  maskFilterFrom mask 0 (u.Param.map FnParam.Kind)

/-- Returns returns the return indices that match the given mask. -/
def UserFn.Returns (u : UserFn) (mask : ReturnKind) : List Nat :=
  maskFilterFrom mask 0 (u.Ret.map ReturnParam.Kind)

/-- SubParams returns the subsequence of the given params with the given
indices. The source indexes the slice unchecked; an out-of-range index,
a Go panic, is rendered none. -/
def SubParams (list : List FnParam) : List Nat → Option (List FnParam)
  | [] => some []
  | i :: is => do
    let p ← list[i]?
    let rest ← SubParams list is
    pure (p :: rest)

/-- SubReturns returns the subsequence of the given return params with the
given indices, unchecked like SubParams. -/
def SubReturns (list : List ReturnParam) : List Nat → Option (List ReturnParam)
  | [] => some []
  | i :: is => do
    let p ← list[i]?
    let rest ← SubReturns list is
    pure (p :: rest)

/-- Follows the spec wording for the classifier precedence: run the tests
in the listed order and return the kind of the first that matches. -/
def firstMatch {α : Type} (t : GoType) : List ((GoType → Bool) × α) → Option α
  | [] => none
  | (p, k) :: rest => if p t then some k else firstMatch t rest

/-- Follows the spec wording: the fixed ordered sequence of parameter
tests — canonical context, canonical event timestamp, canonical type
token, oracle element classification, Emitter shape, Iterator shape,
Re-iterator shape. -/
def specParamTests : List ((GoType → Bool) × FnParamKind) :=
  [(fun t => t == GoType.context, FnContext),
   (fun t => t == GoType.eventTime, FnEventTime),
   (fun t => t == GoType.typeToken, FnType),
   (isElement, FnValue),
   (IsEmit, FnEmit),
   (IsIter, FnIter),
   (IsReIter, FnReIter)]

/-- Follows the spec wording: the ordered sequence of return tests —
canonical error, canonical event timestamp, oracle element
classification. -/
def specRetTests : List ((GoType → Bool) × ReturnKind) :=
  [(fun t => t == GoType.goError, RetError),
   (fun t => t == GoType.eventTime, RetEventTime),
   (isElement, RetValue)]

/-- Follows the spec wording for the singleton finders: the first index, in
declaration order, whose kind equals the sought kind, with a found flag. -/
def specFind (k : Nat) (ks : List Nat) : Int × Bool :=
  match ks.findIdx? (fun x => x == k) with
  | some i => ((i : Int), true)
  | none => (-1, false)

/-- A concrete element type used in witnesses: Go int, concrete per the
oracle. -/
def intTy : GoType := GoType.elem "int" false true false

/-- Default slot used to state list indexing totally. -/
def dfltP : FnParam := { Kind := FnIllegal, T := GoType.context }

/-- Default return slot used to state list indexing totally. -/
def dfltR : ReturnParam := { Kind := RetIllegal, T := GoType.context }

/-- A concrete classified parameter used in witnesses. -/
def pA : FnParam := { Kind := FnValue, T := intTy }

/-- A concrete classified parameter used in witnesses. -/
def pB : FnParam := { Kind := FnContext, T := GoType.context }

/-- A concrete classified parameter used in witnesses. -/
def pC : FnParam := { Kind := FnEmit, T := GoType.func [intTy] [] }

/-- A concrete classified return slot used in witnesses. -/
def rA : ReturnParam := { Kind := RetValue, T := intTy }

/-- A concrete classified return slot used in witnesses. -/
def rB : ReturnParam := { Kind := RetEventTime, T := GoType.eventTime }

/-- A concrete classified return slot used in witnesses. -/
def rC : ReturnParam := { Kind := RetError, T := GoType.goError }

mutual

theorem beqGoType_refl : ∀ a, beqGoType a a = true
  | GoType.context => rfl
  | GoType.eventTime => rfl
  | GoType.typeToken => rfl
  | GoType.goError => rfl
  | GoType.goBool => rfl
  | GoType.elem n c k u => by simp [beqGoType]
  | GoType.ptr a => by simp [beqGoType, beqGoType_refl a]
  | GoType.chan a => by simp [beqGoType, beqGoType_refl a]
  | GoType.func i o => by simp [beqGoType, beqGoTypes_refl i, beqGoTypes_refl o]

theorem beqGoTypes_refl : ∀ l, beqGoTypes l l = true
  | [] => rfl
  | a :: as => by simp [beqGoTypes, beqGoType_refl a, beqGoTypes_refl as]

end

mutual

theorem beqGoType_eq : ∀ a b, beqGoType a b = true → a = b
  | GoType.context, GoType.context, _ => rfl
  | GoType.eventTime, GoType.eventTime, _ => rfl
  | GoType.typeToken, GoType.typeToken, _ => rfl
  | GoType.goError, GoType.goError, _ => rfl
  | GoType.goBool, GoType.goBool, _ => rfl
  | GoType.elem n1 c1 k1 u1, GoType.elem n2 c2 k2 u2, h => by
    simp only [beqGoType, Bool.and_eq_true, beq_iff_eq] at h
    simp [h.1.1.1, h.1.1.2, h.1.2, h.2]
  | GoType.ptr a, GoType.ptr b, h => by
    simp only [beqGoType] at h
    rw [beqGoType_eq a b h]
  | GoType.chan a, GoType.chan b, h => by
    simp only [beqGoType] at h
    rw [beqGoType_eq a b h]
  | GoType.func i1 o1, GoType.func i2 o2, h => by
    simp only [beqGoType, Bool.and_eq_true] at h
    rw [beqGoTypes_eq i1 i2 h.1, beqGoTypes_eq o1 o2 h.2]

theorem beqGoTypes_eq : ∀ l1 l2, beqGoTypes l1 l2 = true → l1 = l2
  | [], [], _ => rfl
  | a :: as, b :: bs, h => by
    simp only [beqGoTypes, Bool.and_eq_true] at h
    rw [beqGoType_eq a b h.1, beqGoTypes_eq as bs h.2]

end

theorem goType_beq_iff (a b : GoType) : (a == b) = true ↔ a = b :=
  ⟨fun h => beqGoType_eq a b h, fun h => h ▸ beqGoType_refl a⟩

theorem paramKind_eq_firstMatch : ∀ t, paramKind t = firstMatch t specParamTests
  | GoType.context => rfl
  | GoType.eventTime => rfl
  | GoType.typeToken => rfl
  | GoType.goError => rfl
  | GoType.goBool => rfl
  | GoType.elem n c k u => by cases c <;> cases k <;> cases u <;> rfl
  | GoType.ptr a => rfl
  | GoType.chan a => rfl
  | GoType.func ins outs => rfl

theorem retKind_eq_firstMatch : ∀ t, retKind t = firstMatch t specRetTests
  | GoType.context => rfl
  | GoType.eventTime => rfl
  | GoType.typeToken => rfl
  | GoType.goError => rfl
  | GoType.goBool => rfl
  | GoType.elem n c k u => by cases c <;> cases k <;> cases u <;> rfl
  | GoType.ptr a => rfl
  | GoType.chan a => rfl
  | GoType.func ins outs => rfl

theorem paramKind_nonzero (t : GoType) (k : FnParamKind) (h : paramKind t = some k) :
    k ≠ FnIllegal := by
  unfold paramKind at h
  split_ifs at h <;> (injection h with h2; subst h2; decide)

theorem retKind_nonzero (t : GoType) (k : ReturnKind) (h : retKind t = some k) :
    k ≠ RetIllegal := by
  unfold retKind at h
  split_ifs at h <;> (injection h with h2; subst h2; decide)

theorem classifyParams_ok : ∀ (name : String) (ins : List GoType),
    (∀ t ∈ ins, (paramKind t).isSome) →
    classifyParams name ins =
      Except.ok (ins.map (fun t => { Kind := (paramKind t).getD FnIllegal, T := t }))
  | name, [], _ => rfl
  | name, t :: ts, h => by
    obtain ⟨k, hk⟩ := Option.isSome_iff_exists.mp (h t (List.mem_cons_self t ts))
    have hrest := classifyParams_ok name ts (fun x hx => h x (List.mem_cons_of_mem t hx))
    simp [classifyParams, hk, hrest, Except.map]

theorem classifyReturns_ok : ∀ (name : String) (outs : List GoType),
    (∀ t ∈ outs, (retKind t).isSome) →
    classifyReturns name outs =
      Except.ok (outs.map (fun t => { Kind := (retKind t).getD RetIllegal, T := t }))
  | name, [], _ => rfl
  | name, t :: ts, h => by
    obtain ⟨k, hk⟩ := Option.isSome_iff_exists.mp (h t (List.mem_cons_self t ts))
    have hrest := classifyReturns_ok name ts (fun x hx => h x (List.mem_cons_of_mem t hx))
    simp [classifyReturns, hk, hrest, Except.map]

theorem classifyParams_ok_inv : ∀ (name : String) (ins : List GoType) (l : List FnParam),
    classifyParams name ins = Except.ok l →
    (∀ t ∈ ins, (paramKind t).isSome) ∧
      l = ins.map (fun t => { Kind := (paramKind t).getD FnIllegal, T := t })
  | name, [], l, h => by
    refine ⟨by simp, ?_⟩
    simpa [classifyParams] using h.symm
  | name, t :: ts, l, h => by
    simp only [classifyParams] at h
    cases hk : paramKind t with
    | none => rw [hk] at h; exact absurd h (by simp)
    | some k =>
      rw [hk] at h
      cases hrest : classifyParams name ts with
      | error e => rw [hrest] at h; exact absurd h (by simp [Except.map])
      | ok rest =>
        rw [hrest] at h
        simp only [Except.map, Except.ok.injEq] at h
        obtain ⟨hall, heq⟩ := classifyParams_ok_inv name ts rest hrest
        refine ⟨?_, ?_⟩
        · intro x hx
          rcases List.mem_cons.mp hx with h1 | h1
          · subst h1; simp [hk]
          · exact hall x h1
        · rw [← h, heq]
          simp [hk]

theorem classifyReturns_ok_inv : ∀ (name : String) (outs : List GoType) (l : List ReturnParam),
    classifyReturns name outs = Except.ok l →
    (∀ t ∈ outs, (retKind t).isSome) ∧
      l = outs.map (fun t => { Kind := (retKind t).getD RetIllegal, T := t })
  | name, [], l, h => by
    refine ⟨by simp, ?_⟩
    simpa [classifyReturns] using h.symm
  | name, t :: ts, l, h => by
    simp only [classifyReturns] at h
    cases hk : retKind t with
    | none => rw [hk] at h; exact absurd h (by simp)
    | some k =>
      rw [hk] at h
      cases hrest : classifyReturns name ts with
      | error e => rw [hrest] at h; exact absurd h (by simp [Except.map])
      | ok rest =>
        rw [hrest] at h
        simp only [Except.map, Except.ok.injEq] at h
        obtain ⟨hall, heq⟩ := classifyReturns_ok_inv name ts rest hrest
        refine ⟨?_, ?_⟩
        · intro x hx
          rcases List.mem_cons.mp hx with h1 | h1
          · subst h1; simp [hk]
          · exact hall x h1
        · rw [← h, heq]
          simp [hk]

theorem New_funcVal_eq (name : String) (ins outs : List GoType) :
    New (GoValue.funcVal name ins outs) =
      match classifyParams name ins with
      | Except.error e => Except.error e
      | Except.ok param =>
        match classifyReturns name outs with
        | Except.error e => Except.error e
        | Except.ok ret => Except.ok { Name := name, Param := param, Ret := ret } := by
  show Except.bind (classifyParams name ins) _ = _
  cases classifyParams name ins with
  | error e => rfl
  | ok param =>
    show Except.bind (classifyReturns name outs) _ = _
    cases classifyReturns name outs with
    | error e => rfl
    | ok ret => rfl

theorem New_ok_inv (name : String) (ins outs : List GoType) (u : UserFn)
    (h : New (GoValue.funcVal name ins outs) = Except.ok u) :
    (∀ t ∈ ins, (paramKind t).isSome) ∧ (∀ t ∈ outs, (retKind t).isSome) ∧
      u = { Name := name,
            Param := ins.map (fun t => { Kind := (paramKind t).getD FnIllegal, T := t }),
            Ret := outs.map (fun t => { Kind := (retKind t).getD RetIllegal, T := t }) } := by
  rw [New_funcVal_eq] at h
  cases hp : classifyParams name ins with
  | error e => rw [hp] at h; exact absurd h (by simp)
  | ok param =>
    rw [hp] at h
    cases hr : classifyReturns name outs with
    | error e => rw [hr] at h; exact absurd h (by simp)
    | ok ret =>
      rw [hr] at h
      obtain ⟨hallp, hparam⟩ := classifyParams_ok_inv name ins param hp
      obtain ⟨hallr, hret⟩ := classifyReturns_ok_inv name outs ret hr
      simp only [Except.ok.injEq] at h
      exact ⟨hallp, hallr, by rw [← h, hparam, hret]⟩

theorem New_ok_of (name : String) (ins outs : List GoType)
    (hp : ∀ t ∈ ins, (paramKind t).isSome) (hr : ∀ t ∈ outs, (retKind t).isSome) :
    New (GoValue.funcVal name ins outs) =
      Except.ok
        { Name := name,
          Param := ins.map (fun t => { Kind := (paramKind t).getD FnIllegal, T := t }),
          Ret := outs.map (fun t => { Kind := (retKind t).getD RetIllegal, T := t }) } := by
  rw [New_funcVal_eq, classifyParams_ok name ins hp, classifyReturns_ok name outs hr]

theorem classifyParams_error_inv : ∀ (name : String) (ins : List GoType) (msg : String),
    classifyParams name ins = Except.error msg →
    ∃ t ∈ ins, paramKind t = none ∧
      msg = "bad paramenter type for " ++ name ++ ": " ++ showGoType t
  | name, [], msg, h => absurd h (by simp [classifyParams])
  | name, t :: ts, msg, h => by
    simp only [classifyParams] at h
    cases hk : paramKind t with
    | none =>
      rw [hk] at h
      simp only [Except.error.injEq] at h
      exact ⟨t, List.mem_cons_self t ts, hk, h.symm⟩
    | some k =>
      rw [hk] at h
      cases hrest : classifyParams name ts with
      | error e =>
        rw [hrest] at h
        simp only [Except.map, Except.error.injEq] at h
        obtain ⟨x, hx, hnone, hmsg⟩ := classifyParams_error_inv name ts e hrest
        exact ⟨x, List.mem_cons_of_mem t hx, hnone, h ▸ hmsg⟩
      | ok rest => rw [hrest] at h; exact absurd h (by simp [Except.map])

theorem classifyReturns_error_inv : ∀ (name : String) (outs : List GoType) (msg : String),
    classifyReturns name outs = Except.error msg →
    ∃ t ∈ outs, retKind t = none ∧
      msg = "bad return type for " ++ name ++ ": " ++ showGoType t
  | name, [], msg, h => absurd h (by simp [classifyReturns])
  | name, t :: ts, msg, h => by
    simp only [classifyReturns] at h
    cases hk : retKind t with
    | none =>
      rw [hk] at h
      simp only [Except.error.injEq] at h
      exact ⟨t, List.mem_cons_self t ts, hk, h.symm⟩
    | some k =>
      rw [hk] at h
      cases hrest : classifyReturns name ts with
      | error e =>
        rw [hrest] at h
        simp only [Except.map, Except.error.injEq] at h
        obtain ⟨x, hx, hnone, hmsg⟩ := classifyReturns_error_inv name ts e hrest
        exact ⟨x, List.mem_cons_of_mem t hx, hnone, h ▸ hmsg⟩
      | ok rest => rw [hrest] at h; exact absurd h (by simp [Except.map])

theorem New_error_of_badParam (name : String) (ins outs : List GoType)
    (h : ∃ t ∈ ins, paramKind t = none) :
    ∃ msg, New (GoValue.funcVal name ins outs) = Except.error msg := by
  rw [New_funcVal_eq]
  cases hp : classifyParams name ins with
  | error e => exact ⟨e, rfl⟩
  | ok param =>
    obtain ⟨t, ht, hnone⟩ := h
    have := (classifyParams_ok_inv name ins param hp).1 t ht
    rw [hnone] at this
    exact absurd this (by simp)

theorem New_error_of_badRet (name : String) (ins outs : List GoType)
    (h : ∃ t ∈ outs, retKind t = none) :
    ∃ msg, New (GoValue.funcVal name ins outs) = Except.error msg := by
  rw [New_funcVal_eq]
  cases hp : classifyParams name ins with
  | error e => exact ⟨e, rfl⟩
  | ok param =>
    cases hr : classifyReturns name outs with
    | error e => exact ⟨e, rfl⟩
    | ok ret =>
      obtain ⟨t, ht, hnone⟩ := h
      have := (classifyReturns_ok_inv name outs ret hr).1 t ht
      rw [hnone] at this
      exact absurd this (by simp)

theorem maskFilterFrom_eq : ∀ (ks : List Nat) (mask i : Nat),
    maskFilterFrom mask i ks =
      ((List.range ks.length).filter
        (fun j => decide (Nat.land (ks.getD j 0) mask ≠ 0))).map (· + i)
  | [], mask, i => rfl
  | k :: ks, mask, i => by
    have ih := maskFilterFrom_eq ks mask (i + 1)
    by_cases hc : Nat.land k mask ≠ 0 <;>
      (simp [maskFilterFrom, hc, List.range_succ_eq_map, List.filter_cons,
        List.filter_map, List.map_map, ih]
       congr 1 <;>
        first
        | (funext x
           simp only [Function.comp_apply, Nat.succ_eq_add_one]
           omega)
        | (apply List.filter_congr
           intro j hj
           simp))

theorem findKindFrom_eq : ∀ (ks : List Nat) (k i : Nat),
    findKindFrom k i ks =
      match List.findIdx? (fun x => x == k) ks i with
      | some j => ((j : Int), true)
      | none => (-1, false)
  | [], k, i => by simp [findKindFrom, List.findIdx?_nil]
  | p :: ps, k, i => by
    by_cases h : p = k <;>
      simp [findKindFrom, List.findIdx?_cons, h, findKindFrom_eq ps k (i + 1)]

theorem subParams_all_inbounds : ∀ (list : List FnParam) (indices : List Nat),
    (∀ i ∈ indices, i < list.length) →
    SubParams list indices = some (indices.map (fun i => list.getD i dfltP))
  | list, [], _ => rfl
  | list, i :: is, h => by
    have hi : i < list.length := h i (List.mem_cons_self i is)
    have h1 : list[i]? = some (list.getD i dfltP) := by
      rw [List.getElem?_eq_getElem hi, List.getD_eq_getElem list dfltP hi]
    have hrest := subParams_all_inbounds list is (fun x hx => h x (List.mem_cons_of_mem i hx))
    calc SubParams list (i :: is)
        = (list[i]?).bind
            (fun p => (SubParams list is).bind (fun rest => some (p :: rest))) := rfl
      _ = some ((i :: is).map (fun j => list.getD j dfltP)) := by rw [h1, hrest]; rfl

theorem subReturns_all_inbounds : ∀ (list : List ReturnParam) (indices : List Nat),
    (∀ i ∈ indices, i < list.length) →
    SubReturns list indices = some (indices.map (fun i => list.getD i dfltR))
  | list, [], _ => rfl
  | list, i :: is, h => by
    have hi : i < list.length := h i (List.mem_cons_self i is)
    have h1 : list[i]? = some (list.getD i dfltR) := by
      rw [List.getElem?_eq_getElem hi, List.getD_eq_getElem list dfltR hi]
    have hrest := subReturns_all_inbounds list is (fun x hx => h x (List.mem_cons_of_mem i hx))
    calc SubReturns list (i :: is)
        = (list[i]?).bind
            (fun p => (SubReturns list is).bind (fun rest => some (p :: rest))) := rfl
      _ = some ((i :: is).map (fun j => list.getD j dfltR)) := by rw [h1, hrest]; rfl

theorem subParams_oob : ∀ (list : List FnParam) (indices : List Nat) (i : Nat),
    i ∈ indices → list.length ≤ i → SubParams list indices = none
  | list, j :: is, i, hmem, hlen => by
    rcases List.mem_cons.mp hmem with h1 | h1
    · subst h1
      have hnone : list[i]? = none := List.getElem?_eq_none hlen
      simp [SubParams, hnone]
    · cases hj : list[j]? with
      | none => simp [SubParams, hj]
      | some p => simp [SubParams, hj, subParams_oob list is i h1 hlen]

theorem subReturns_oob : ∀ (list : List ReturnParam) (indices : List Nat) (i : Nat),
    i ∈ indices → list.length ≤ i → SubReturns list indices = none
  | list, j :: is, i, hmem, hlen => by
    rcases List.mem_cons.mp hmem with h1 | h1
    · subst h1
      have hnone : list[i]? = none := List.getElem?_eq_none hlen
      simp [SubReturns, hnone]
    · cases hj : list[j]? with
      | none => simp [SubReturns, hj]
      | some p => simp [SubReturns, hj, subReturns_oob list is i h1 hlen]

theorem maskFilterFrom_zero : ∀ (ks : List Nat) (i : Nat), maskFilterFrom 0 i ks = []
  | [], i => rfl
  | k :: ks, i => by
    have hz : Nat.land k 0 = 0 := by simp [Nat.land]
    simp [maskFilterFrom, hz, maskFilterFrom_zero ks (i + 1)]

/-- C1: for every callable accepted by New, each input parameter type is
assigned exactly one ParamKind by running, in declaration order over the
parameters, the fixed precedence sequence of tests — canonical context,
canonical event timestamp, canonical type token, oracle element
classification, Emitter shape, Iterator shape, Re-iterator shape — and if
none match, New fails. -/
theorem userfn_C1 :
    (∀ t : GoType, paramKind t = firstMatch t specParamTests) ∧
    (∀ (name : String) (ins outs : List GoType) (u : UserFn),
      New (GoValue.funcVal name ins outs) = Except.ok u →
      u.Param = ins.map (fun t => { Kind := (paramKind t).getD FnIllegal, T := t })) ∧
    (∀ (name : String) (ins outs : List GoType),
      (∃ t ∈ ins, paramKind t = none) →
      ∃ msg, New (GoValue.funcVal name ins outs) = Except.error msg) := by
  refine ⟨paramKind_eq_firstMatch, ?_, New_error_of_badParam⟩
  intro name ins outs u h
  rw [(New_ok_inv name ins outs u h).2.2]

/-- Witness for C1: New classifies a context parameter, and fails on a
channel parameter. -/
theorem userfn_C1_witness :
    (({ Name := "f",
        Param := [{ Kind := FnContext, T := GoType.context }],
        Ret := [] } : UserFn).Param =
      [GoType.context].map (fun t => { Kind := (paramKind t).getD FnIllegal, T := t })) ∧
    ∃ msg, New (GoValue.funcVal "g" [GoType.chan intTy] []) = Except.error msg :=
  ⟨userfn_C1.2.1 "f" [GoType.context] []
      { Name := "f",
        Param := [{ Kind := FnContext, T := GoType.context }],
        Ret := [] } rfl,
   userfn_C1.2.2 "g" [GoType.chan intTy] []
      ⟨GoType.chan intTy, List.mem_singleton.mpr rfl, rfl⟩⟩

/-- C2: for every callable accepted by New, each return type is assigned
exactly one ReturnKind in declaration order by the precedence sequence
canonical error, canonical event timestamp, oracle element classification,
failing otherwise; in particular returns (int, int, error) classify as
Value, Value, Error. -/
theorem userfn_C2 :
    (∀ t : GoType, retKind t = firstMatch t specRetTests) ∧
    (∀ (name : String) (ins outs : List GoType) (u : UserFn),
      New (GoValue.funcVal name ins outs) = Except.ok u →
      u.Ret = outs.map (fun t => { Kind := (retKind t).getD RetIllegal, T := t })) ∧
    (∀ (name : String) (ins outs : List GoType),
      (∃ t ∈ outs, retKind t = none) →
      ∃ msg, New (GoValue.funcVal name ins outs) = Except.error msg) ∧
    (∃ u, New (GoValue.funcVal "f" [] [intTy, intTy, GoType.goError]) = Except.ok u ∧
      u.Ret.map ReturnParam.Kind = [RetValue, RetValue, RetError]) := by
  refine ⟨retKind_eq_firstMatch, ?_, New_error_of_badRet, ?_⟩
  · intro name ins outs u h
    rw [(New_ok_inv name ins outs u h).2.2]
  · exact ⟨{ Name := "f", Param := [],
             Ret := [{ Kind := RetValue, T := intTy },
                     { Kind := RetValue, T := intTy },
                     { Kind := RetError, T := GoType.goError }] },
           rfl, rfl⟩

/-- Witness for C2: New classifies the (int, int, error) returns, and fails
on a channel return. -/
theorem userfn_C2_witness :
    (({ Name := "f", Param := [],
        Ret := [{ Kind := RetValue, T := intTy },
                { Kind := RetValue, T := intTy },
                { Kind := RetError, T := GoType.goError }] } : UserFn).Ret =
      [intTy, intTy, GoType.goError].map
        (fun t => { Kind := (retKind t).getD RetIllegal, T := t })) ∧
    ∃ msg, New (GoValue.funcVal "g" [] [GoType.chan intTy]) = Except.error msg :=
  ⟨userfn_C2.2.1 "f" [] [intTy, intTy, GoType.goError]
      { Name := "f", Param := [],
        Ret := [{ Kind := RetValue, T := intTy },
                { Kind := RetValue, T := intTy },
                { Kind := RetError, T := GoType.goError }] } rfl,
   userfn_C2.2.2.1 "g" [] [GoType.chan intTy]
      ⟨GoType.chan intTy, List.mem_singleton.mpr rfl, rfl⟩⟩

/-- C3: every descriptor New constructs has only non-zero parameter and
return kinds — FnIllegal and RetIllegal never appear. -/
theorem userfn_C3 (v : GoValue) (u : UserFn) (h : New v = Except.ok u) :
    (∀ p ∈ u.Param, p.Kind ≠ FnIllegal) ∧ (∀ r ∈ u.Ret, r.Kind ≠ RetIllegal) := by
  cases v with
  | nonFunc k => exact absurd h (by simp [New])
  | funcVal name ins outs =>
    obtain ⟨hp, hr, hu⟩ := New_ok_inv name ins outs u h
    subst hu
    constructor
    · intro p hp2
      simp only [List.mem_map] at hp2
      obtain ⟨t, ht, rfl⟩ := hp2
      obtain ⟨k, hk⟩ := Option.isSome_iff_exists.mp (hp t ht)
      simpa [hk] using paramKind_nonzero t k hk
    · intro r hr2
      simp only [List.mem_map] at hr2
      obtain ⟨t, ht, rfl⟩ := hr2
      obtain ⟨k, hk⟩ := Option.isSome_iff_exists.mp (hr t ht)
      simpa [hk] using retKind_nonzero t k hk

/-- Witness for C3 on a callable with a context parameter and an error
return. -/
theorem userfn_C3_witness :
    (∀ p ∈ ({ Name := "f",
              Param := [{ Kind := FnContext, T := GoType.context }],
              Ret := [{ Kind := RetError, T := GoType.goError }] } : UserFn).Param,
      p.Kind ≠ FnIllegal) ∧
    (∀ r ∈ ({ Name := "f",
              Param := [{ Kind := FnContext, T := GoType.context }],
              Ret := [{ Kind := RetError, T := GoType.goError }] } : UserFn).Ret,
      r.Kind ≠ RetIllegal) :=
  userfn_C3 (GoValue.funcVal "f" [GoType.context] [GoType.goError])
    { Name := "f",
      Param := [{ Kind := FnContext, T := GoType.context }],
      Ret := [{ Kind := RetError, T := GoType.goError }] } rfl

/-- C4: New fails with the not-a-function error on non-function values;
a function value classifies successfully exactly when every parameter and
every return type is recognized; and a failing New never also yields a
descriptor. -/
theorem userfn_C4 :
    (∀ k, New (GoValue.nonFunc k) = Except.error ("not a function or method: " ++ k)) ∧
    (∀ (name : String) (ins outs : List GoType),
      (∃ u, New (GoValue.funcVal name ins outs) = Except.ok u) ↔
        ((∀ t ∈ ins, (paramKind t).isSome) ∧ (∀ t ∈ outs, (retKind t).isSome))) ∧
    (∀ (v : GoValue) (msg : String), New v = Except.error msg →
      ∀ u, ¬ New v = Except.ok u) := by
  refine ⟨fun k => rfl, ?_, ?_⟩
  · intro name ins outs
    constructor
    · rintro ⟨u, hu⟩
      obtain ⟨hp, hr, _⟩ := New_ok_inv name ins outs u hu
      exact ⟨hp, hr⟩
    · rintro ⟨hp, hr⟩
      exact ⟨_, New_ok_of name ins outs hp hr⟩
  · intro v msg h u hu
    rw [h] at hu
    exact absurd hu (by simp)

/-- Witness for C4: an int value is rejected as not a function; a valid
callable classifies; a callable with a channel parameter yields no
descriptor. -/
theorem userfn_C4_witness :
    New (GoValue.nonFunc "int") = Except.error ("not a function or method: " ++ "int") ∧
    (∃ u, New (GoValue.funcVal "f" [GoType.context] [GoType.goError]) = Except.ok u) ∧
    ¬ New (GoValue.funcVal "g" [GoType.chan intTy] []) =
        Except.ok { Name := "g", Param := [], Ret := [] } :=
  ⟨userfn_C4.1 "int",
   (userfn_C4.2.1 "f" [GoType.context] [GoType.goError]).mpr
     ⟨by intro t ht; rw [List.mem_singleton.mp ht]; rfl,
      by intro t ht; rw [List.mem_singleton.mp ht]; rfl⟩,
   userfn_C4.2.2 (GoValue.funcVal "g" [GoType.chan intTy] [])
     "bad paramenter type for g: chan int" rfl
     { Name := "g", Param := [], Ret := [] }⟩

/-- C5 counterexample: New rejecting the channel parameter at index 0 of
func "f" produces an error message that contains no digit character at all,
so it cannot include the 0-based position of the offending parameter. -/
theorem userfn_C5_counterexample :
    New (GoValue.funcVal "f" [GoType.chan intTy] []) =
      Except.error "bad paramenter type for f: chan int" ∧
    ∀ c ∈ "bad paramenter type for f: chan int".toList, c.isDigit = false :=
  ⟨rfl, by decide⟩

/-- C5 as amended: whenever New fails on an unsupported parameter or return
type, the error includes the callable debug name and a description of the
received type — but not the position of the offending slot. -/
theorem userfn_C5_amended (name : String) (ins outs : List GoType) (msg : String)
    (h : New (GoValue.funcVal name ins outs) = Except.error msg) :
    (∃ t ∈ ins, paramKind t = none ∧
      msg = "bad paramenter type for " ++ name ++ ": " ++ showGoType t) ∨
    (∃ t ∈ outs, retKind t = none ∧
      msg = "bad return type for " ++ name ++ ": " ++ showGoType t) := by
  rw [New_funcVal_eq] at h
  cases hp : classifyParams name ins with
  | error e =>
    rw [hp] at h
    simp only [Except.error.injEq] at h
    subst h
    exact Or.inl (classifyParams_error_inv name ins e hp)
  | ok param =>
    rw [hp] at h
    cases hr : classifyReturns name outs with
    | error e =>
      rw [hr] at h
      simp only [Except.error.injEq] at h
      subst h
      exact Or.inr (classifyReturns_error_inv name outs e hr)
    | ok ret => rw [hr] at h; exact absurd h (by simp)

/-- Witness for the amended C5 on the channel-parameter rejection. -/
theorem userfn_C5_amended_witness :
    (∃ t ∈ [GoType.chan intTy], paramKind t = none ∧
      "bad paramenter type for f: chan int" =
        "bad paramenter type for " ++ "f" ++ ": " ++ showGoType t) ∨
    (∃ t ∈ ([] : List GoType), retKind t = none ∧
      "bad paramenter type for f: chan int" =
        "bad return type for " ++ "f" ++ ": " ++ showGoType t) :=
  userfn_C5_amended "f" [GoType.chan intTy] []
    "bad paramenter type for f: chan int" rfl

/-- C6: Params returns exactly the ascending indices whose kind has a
nonzero bitwise intersection with the mask; the zero mask selects nothing;
Returns behaves the same over return kinds; and the kind constants are
pairwise disjoint single bits, making the mask queries well-defined. -/
theorem userfn_C6 :
    (∀ (u : UserFn) (mask : FnParamKind),
      u.Params mask =
        (List.range u.Param.length).filter
          (fun i => decide (Nat.land ((u.Param.map FnParam.Kind).getD i 0) mask ≠ 0))) ∧
    (∀ u : UserFn, u.Params FnIllegal = []) ∧
    (∀ (u : UserFn) (mask : ReturnKind),
      u.Returns mask =
        (List.range u.Ret.length).filter
          (fun i => decide (Nat.land ((u.Ret.map ReturnParam.Kind).getD i 0) mask ≠ 0))) ∧
    (∀ u : UserFn, u.Returns RetIllegal = []) ∧
    List.Pairwise (fun a b => Nat.land a b = 0 ∧ a ≠ b)
      [FnContext, FnEventTime, FnValue, FnIter, FnReIter, FnEmit, FnType] ∧
    List.Pairwise (fun a b => Nat.land a b = 0 ∧ a ≠ b)
      [RetEventTime, RetValue, RetError] := by
  refine ⟨?_, ?_, ?_, ?_, by decide, by decide⟩
  · intro u mask
    rw [UserFn.Params, maskFilterFrom_eq]
    simp
  · intro u
    exact maskFilterFrom_zero (u.Param.map FnParam.Kind) 0
  · intro u mask
    rw [UserFn.Returns, maskFilterFrom_eq]
    simp
  · intro u
    exact maskFilterFrom_zero (u.Ret.map ReturnParam.Kind) 0

/-- C7: SubParams and SubReturns project the list onto the given indices in
the order the indices are given. -/
theorem userfn_C7 :
    (∀ (list : List FnParam) (indices : List Nat),
      (∀ i ∈ indices, i < list.length) →
      SubParams list indices = some (indices.map (fun i => list.getD i dfltP))) ∧
    (∀ (list : List ReturnParam) (indices : List Nat),
      (∀ i ∈ indices, i < list.length) →
      SubReturns list indices = some (indices.map (fun i => list.getD i dfltR))) :=
  ⟨subParams_all_inbounds, subReturns_all_inbounds⟩

/-- Witness for C7: selecting [2, 0] yields the slots at indices 2 and 0 in
selection order, not ascending order. -/
theorem userfn_C7_witness :
    SubParams [pA, pB, pC] [2, 0] = some [pC, pA] ∧
    SubReturns [rA, rB, rC] [2, 0] = some [rC, rA] :=
  ⟨userfn_C7.1 [pA, pB, pC] [2, 0] (by decide),
   userfn_C7.2 [rA, rB, rC] [2, 0] (by decide)⟩

/-- C8: each singleton finder returns the first slot, in declaration order,
whose kind equals the sought kind, with found=false when absent; a
descriptor with two context slots is not rejected and Context returns the
first occurrence. -/
theorem userfn_C8 :
    (∀ u : UserFn, u.Context = specFind FnContext (u.Param.map FnParam.Kind)) ∧
    (∀ u : UserFn, u.Type = specFind FnType (u.Param.map FnParam.Kind)) ∧
    (∀ u : UserFn, u.EventTime = specFind FnEventTime (u.Param.map FnParam.Kind)) ∧
    (∀ u : UserFn, u.Error = specFind RetError (u.Ret.map ReturnParam.Kind)) ∧
    (∀ u : UserFn, u.OutEventTime = specFind RetEventTime (u.Ret.map ReturnParam.Kind)) ∧
    ({ Name := "twoCtx",
       Param := [{ Kind := FnContext, T := GoType.context },
                 { Kind := FnContext, T := GoType.context }],
       Ret := [] } : UserFn).Context = (0, true) :=
  ⟨fun u => findKindFrom_eq (u.Param.map FnParam.Kind) FnContext 0,
   fun u => findKindFrom_eq (u.Param.map FnParam.Kind) FnType 0,
   fun u => findKindFrom_eq (u.Param.map FnParam.Kind) FnEventTime 0,
   fun u => findKindFrom_eq (u.Ret.map ReturnParam.Kind) RetError 0,
   fun u => findKindFrom_eq (u.Ret.map ReturnParam.Kind) RetEventTime 0,
   rfl⟩

/-- C9: classification is deterministic in the static signature — two
callables with the same parameter and return types receive identical kind
sequences, whatever their names. -/
theorem userfn_C9 (name1 name2 : String) (ins outs : List GoType) (u1 u2 : UserFn)
    (h1 : New (GoValue.funcVal name1 ins outs) = Except.ok u1)
    (h2 : New (GoValue.funcVal name2 ins outs) = Except.ok u2) :
    u1.Param.map FnParam.Kind = u2.Param.map FnParam.Kind ∧
    u1.Ret.map ReturnParam.Kind = u2.Ret.map ReturnParam.Kind := by
  obtain ⟨_, _, e1⟩ := New_ok_inv name1 ins outs u1 h1
  obtain ⟨_, _, e2⟩ := New_ok_inv name2 ins outs u2 h2
  subst e1
  subst e2
  exact ⟨rfl, rfl⟩

/-- Witness for C9 on two callables of the same signature with different
names. -/
theorem userfn_C9_witness :
    ({ Name := "f1",
       Param := [{ Kind := FnContext, T := GoType.context }],
       Ret := [{ Kind := RetError, T := GoType.goError }] } : UserFn).Param.map
        FnParam.Kind =
      ({ Name := "f2",
         Param := [{ Kind := FnContext, T := GoType.context }],
         Ret := [{ Kind := RetError, T := GoType.goError }] } : UserFn).Param.map
        FnParam.Kind ∧
    ({ Name := "f1",
       Param := [{ Kind := FnContext, T := GoType.context }],
       Ret := [{ Kind := RetError, T := GoType.goError }] } : UserFn).Ret.map
        ReturnParam.Kind =
      ({ Name := "f2",
         Param := [{ Kind := FnContext, T := GoType.context }],
         Ret := [{ Kind := RetError, T := GoType.goError }] } : UserFn).Ret.map
        ReturnParam.Kind :=
  userfn_C9 "f1" "f2" [GoType.context] [GoType.goError]
    { Name := "f1",
      Param := [{ Kind := FnContext, T := GoType.context }],
      Ret := [{ Kind := RetError, T := GoType.goError }] }
    { Name := "f2",
      Param := [{ Kind := FnContext, T := GoType.context }],
      Ret := [{ Kind := RetError, T := GoType.goError }] }
    rfl rfl

/-- C10: SubParams and SubReturns index without a bounds check: when every
index is in range the projection succeeds with one element per index, and
an out-of-range index panics — modelled as none — rather than returning an
error value. -/
theorem userfn_C10 :
    (∀ (list : List FnParam) (indices : List Nat),
      (∀ i ∈ indices, i < list.length) →
      ∃ res, SubParams list indices = some res ∧ res.length = indices.length) ∧
    (∀ (list : List FnParam) (indices : List Nat) (i : Nat),
      i ∈ indices → list.length ≤ i → SubParams list indices = none) ∧
    (∀ (list : List ReturnParam) (indices : List Nat),
      (∀ i ∈ indices, i < list.length) →
      ∃ res, SubReturns list indices = some res ∧ res.length = indices.length) ∧
    (∀ (list : List ReturnParam) (indices : List Nat) (i : Nat),
      i ∈ indices → list.length ≤ i → SubReturns list indices = none) := by
  refine ⟨?_, subParams_oob, ?_, subReturns_oob⟩
  · intro list indices h
    exact ⟨_, subParams_all_inbounds list indices h, by simp⟩
  · intro list indices h
    exact ⟨_, subReturns_all_inbounds list indices h, by simp⟩

/-- Witness for C10: in-bounds selections succeed with matching length;
an out-of-range index yields none. -/
theorem userfn_C10_witness :
    (∃ res, SubParams [pA, pB] [1, 0, 1] = some res ∧ res.length = 3) ∧
    SubParams [pA, pB] [2, 0] = none ∧
    (∃ res, SubReturns [rA] [0] = some res ∧ res.length = 1) ∧
    SubReturns [rA] [1] = none :=
  ⟨userfn_C10.1 [pA, pB] [1, 0, 1] (by decide),
   userfn_C10.2.1 [pA, pB] [2, 0] 2 (List.mem_cons_self 2 [0]) (by decide),
   userfn_C10.2.2.1 [rA] [0] (by decide),
   userfn_C10.2.2.2 [rA] [1] 1 (List.mem_singleton.mpr rfl) (by decide)⟩
